import Mathlib

/-!
Shallow embedding of the OmniAlign sequence-processing core
(`src/lib/sequenceUtils.ts`, `src/lib/nucleotideUtils.ts`,
`src/lib/proteinUtils.ts`).  Strings are modelled as `List Char`,
JavaScript numbers as `ℚ` (all arithmetic the claims touch is exact in
the source ranges), and a thrown exception as an explicit result
constructor.  Each definition follows its TypeScript source line by
line; divergences forced by the model (ASCII-only upper-casing,
`0 / 0 = 0` instead of `NaN`) are noted where they occur.
-/

namespace OmniAlign

/-- The two sequence modes of `sequenceUtils.ts`. -/
inductive SequenceType where
  | protein
  | nucleotide
deriving DecidableEq

/-- `PROTEIN_ALPHABET` of `sequenceUtils.ts`. -/
def PROTEIN_ALPHABET : List Char := "ACDEFGHIKLMNPQRSTVWYBXZ*-".data

/-- `NUCLEOTIDE_ALPHABET` of `sequenceUtils.ts`. -/
def NUCLEOTIDE_ALPHABET : List Char := "ACGTRYSWKMBDHVN-".data

/-- `getAlphabet` of `sequenceUtils.ts`. -/
def getAlphabet : SequenceType → List Char
  | .protein => PROTEIN_ALPHABET
  | .nucleotide => NUCLEOTIDE_ALPHABET

/-- The characters of JavaScript's `\s` class that can occur in ASCII text
(the embedding covers the ASCII plane). -/
def jsIsSpace (c : Char) : Bool :=
  c == ' ' || c == '\t' || c == '\n' || c == '\r' || c == '\x0b' || c == '\x0c'

/-- `normalizeSequence` of `sequenceUtils.ts`: strip whitespace, upper-case
(ASCII), and for nucleotide mode rewrite `U` to `T`. -/
def normalizeSequence (text : List Char) (sequenceType : SequenceType) : List Char :=
  let stripped := (text.filter (fun c => !jsIsSpace c)).map Char.toUpper
  match sequenceType with
  | .nucleotide => stripped.map (fun c => if c == 'U' then 'T' else c)
  | .protein => stripped

/-- `collectInvalidCharacters` of `sequenceUtils.ts`: the distinct characters
outside the active alphabet, in first-seen order (a JS `Set` keeps insertion
order). -/
def collectInvalidCharacters (sequence : List Char) (sequenceType : SequenceType) : List Char :=
  sequence.foldl
    (fun invalid c =>
      if (getAlphabet sequenceType).contains c then invalid
      else if invalid.contains c then invalid
      else invalid ++ [c])
    []

/-- The four return sites of `validateSequence`, one constructor per distinct
message shape (the `name` parameter only decorates the message text and is
dropped). -/
inductive ValidationResult where
  | valid
  | emptySequence
  | sequenceTooLong
  | invalidCharacters (chars : List Char)
deriving DecidableEq

/-- `MAX_SEQUENCE_LENGTH` of `sequenceUtils.ts`. -/
def MAX_SEQUENCE_LENGTH : Nat := 10000

/-- `validateSequence` of `sequenceUtils.ts`.  Note the emptiness and length
checks run on the raw argument; only the alphabet check sees the normalized
sequence. -/
def validateSequence (sequence : List Char) (sequenceType : SequenceType) : ValidationResult :=
  if sequence = [] then .emptySequence
  else if MAX_SEQUENCE_LENGTH < sequence.length then .sequenceTooLong
  else
    let normalized := normalizeSequence sequence sequenceType
    let invalidChars := collectInvalidCharacters normalized sequenceType
    if invalidChars = [] then .valid else .invalidCharacters invalidChars

/-- The record `compareSequences` returns. -/
structure ComparisonData where
  differences : List String
  residues : List Nat
  identity : ℚ
deriving DecidableEq

/-- One difference token `"<refChar><i + 1><queryChar>"` (`i` 0-based). -/
def diffToken (refChar : Char) (i : Nat) (queryChar : Char) : String :=
  String.mk (refChar :: ((Nat.repr (i + 1)).data ++ [queryChar]))

/-- The position loop of `compareSequences`, run over the listed indices in
order: positions past a sequence's end read as `'-'`; a mismatch records a
token and a 1-based residue, a match away from `'-'` counts toward
`matchCount`. -/
def compareSequencesLoop (reference query : List Char) : List Nat → List String × List Nat × Nat
  | [] => ([], [], 0)
  | i :: rest =>
    let refChar := reference.getD i '-'
    let queryChar := query.getD i '-'
    let acc := compareSequencesLoop reference query rest
    if refChar ≠ queryChar then (diffToken refChar i queryChar :: acc.1, (i + 1) :: acc.2.1, acc.2.2)
    else if refChar ≠ '-' then (acc.1, acc.2.1, acc.2.2 + 1)
    else acc

/-- `compareSequences` of `sequenceUtils.ts`. -/
def compareSequences (refSeq querySeq : List Char) (sequenceType : SequenceType) : ComparisonData :=
  let reference := normalizeSequence refSeq sequenceType
  let query := normalizeSequence querySeq sequenceType
  let maxLen := max reference.length query.length
  let acc := compareSequencesLoop reference query (List.range maxLen)
  { differences := acc.1
    residues := acc.2.1
    identity := if 0 < maxLen then ((acc.2.2 : ℚ) / (maxLen : ℚ)) * 100 else 0 }

/-- `FASTAEntry` of `sequenceUtils.ts`. -/
structure FASTAEntry where
  header : List Char
  sequence : List Char
deriving DecidableEq

/-- JavaScript `String.prototype.trim` over the ASCII plane. -/
def jsTrim (line : List Char) : List Char :=
  ((line.dropWhile jsIsSpace).reverse.dropWhile jsIsSpace).reverse

/-- `text.split(/\r?\n/)`: `"\r\n"` and `"\n"` separate lines, a lone `'\r'`
stays in its line. -/
def splitLines : List Char → List Char → List (List Char)
  | [], acc => [acc.reverse]
  | '\r' :: '\n' :: rest, acc => acc.reverse :: splitLines rest []
  | '\n' :: rest, acc => acc.reverse :: splitLines rest []
  | c :: rest, acc => splitLines rest (c :: acc)

/-- The default header `"Sequence <n>"`. -/
def defaultHeader (n : Nat) : List Char := "Sequence ".data ++ (Nat.repr n).data

/-- The mutable locals of `parseFASTAEntries`'s line loop. -/
structure ParseState where
  entries : List FASTAEntry
  currentHeader : Option (List Char)
  seqLines : List (List Char)
deriving DecidableEq

/-- The `addEntry` closure of `parseFASTAEntries`: commit the accumulated
lines when their normalization is non-empty, defaulting a missing or empty
header. -/
def addEntry (sequenceType : SequenceType) (st : ParseState) : ParseState :=
  if st.seqLines = [] then st
  else
    let normalized := normalizeSequence st.seqLines.flatten sequenceType
    if normalized = [] then { st with seqLines := [] }
    else
      let index := st.entries.length + 1
      let header := match st.currentHeader with
        | some h => if h ≠ [] then h else defaultHeader index
        | none => defaultHeader index
      { st with entries := st.entries ++ [⟨header, normalized⟩], seqLines := [] }

/-- One iteration of `parseFASTAEntries`'s `for (const line of lines)` loop. -/
def parseStep (sequenceType : SequenceType) (st : ParseState) (line : List Char) : ParseState :=
  if line.head? = some '>' then
    let committed := addEntry sequenceType st
    { committed with currentHeader := some (jsTrim (line.drop 1)) }
  else if jsTrim line ≠ [] then
    { st with seqLines := st.seqLines ++ [jsTrim line] }
  else st

/-- The parser state after the line loop and the final `addEntry()` call. -/
def parseFASTAState (text : List Char) (sequenceType : SequenceType) : ParseState :=
  addEntry sequenceType ((splitLines text []).foldl (parseStep sequenceType) ⟨[], none, []⟩)

/-- `parseFASTAEntries` of `sequenceUtils.ts`.  When the loop committed no
entry, the whole input (normalized) becomes one raw entry; the final map
re-defaults any empty header. -/
def parseFASTAEntries (text : List Char) (sequenceType : SequenceType) : List FASTAEntry :=
  if text = [] then []
  else
    let st := parseFASTAState text sequenceType
    let entries :=
      if st.entries = [] then
        let normalized := normalizeSequence text sequenceType
        if normalized = [] then [] else [⟨"Sequence 1".data, normalized⟩]
      else st.entries
    entries.enum.map (fun p =>
      ⟨if p.2.header ≠ [] then p.2.header else defaultHeader (p.1 + 1), p.2.sequence⟩)

/-! Embedding of `src/lib/nucleotideUtils.ts`. -/

/-- `PURINES` of `nucleotideUtils.ts`. -/
def PURINES : List Char := ['A', 'G']

/-- `PYRIMIDINES` of `nucleotideUtils.ts`. -/
def PYRIMIDINES : List Char := ['C', 'T']

/-- The `GENETIC_CODE` table of `nucleotideUtils.ts`: 64 codons plus `NNN`. -/
def GENETIC_CODE : List (String × Char) :=
  [("TTT", 'F'), ("TTC", 'F'), ("TTA", 'L'), ("TTG", 'L'),
   ("TCT", 'S'), ("TCC", 'S'), ("TCA", 'S'), ("TCG", 'S'),
   ("TAT", 'Y'), ("TAC", 'Y'), ("TAA", '*'), ("TAG", '*'),
   ("TGT", 'C'), ("TGC", 'C'), ("TGA", '*'), ("TGG", 'W'),
   ("CTT", 'L'), ("CTC", 'L'), ("CTA", 'L'), ("CTG", 'L'),
   ("CCT", 'P'), ("CCC", 'P'), ("CCA", 'P'), ("CCG", 'P'),
   ("CAT", 'H'), ("CAC", 'H'), ("CAA", 'Q'), ("CAG", 'Q'),
   ("CGT", 'R'), ("CGC", 'R'), ("CGA", 'R'), ("CGG", 'R'),
   ("ATT", 'I'), ("ATC", 'I'), ("ATA", 'I'), ("ATG", 'M'),
   ("ACT", 'T'), ("ACC", 'T'), ("ACA", 'T'), ("ACG", 'T'),
   ("AAT", 'N'), ("AAC", 'N'), ("AAA", 'K'), ("AAG", 'K'),
   ("AGT", 'S'), ("AGC", 'S'), ("AGA", 'R'), ("AGG", 'R'),
   ("GTT", 'V'), ("GTC", 'V'), ("GTA", 'V'), ("GTG", 'V'),
   ("GCT", 'A'), ("GCC", 'A'), ("GCA", 'A'), ("GCG", 'A'),
   ("GAT", 'D'), ("GAC", 'D'), ("GAA", 'E'), ("GAG", 'E'),
   ("GGT", 'G'), ("GGC", 'G'), ("GGA", 'G'), ("GGG", 'G'),
   ("NNN", 'X')]

/-- The character class of the `AMBIGUOUS_TO_N` regular expression. -/
def AMBIGUOUS_TO_N : List Char := "BDHVRSWKMY".data

/-- `translateNucleotideSequence` throws on a bad frame and otherwise returns
the protein string; the two outcomes of the JavaScript function as values. -/
inductive TranslationResult where
  | thrown (message : String)
  | translated (protein : List Char)
deriving DecidableEq

/-- JavaScript `sanitized.slice(i, i + 3)` for a (possibly fractional)
non-negative `i`: `slice` truncates its arguments to integers. -/
def codonSlice (sanitized : List Char) (i : ℚ) : List Char :=
  (sanitized.take (Int.toNat ⌊i + 3⌋)).drop (Int.toNat ⌊i⌋)

/-- The codon loop of `translateNucleotideSequence`: while `i + 2 < length`,
translate `slice(i, i + 3)` (ambiguity codes collapsed to `N`, unknown codons
to `X`) and step `i` by 3.  The fuel argument only bounds the recursion; the
callers pass enough for the loop to reach its exit condition. -/
def translateLoop (sanitized : List Char) : Nat → ℚ → List Char
  | 0, _ => []
  | fuel + 1, i =>
    if i + 2 < (sanitized.length : ℚ) then
      let codon := (codonSlice sanitized i).map (fun c => if AMBIGUOUS_TO_N.contains c then 'N' else c)
      ((GENETIC_CODE.lookup (String.mk codon)).getD 'X') :: translateLoop sanitized fuel (i + 3)
    else []

/-- `translateNucleotideSequence` of `nucleotideUtils.ts`: throws unless
`0 ≤ frame ≤ 2` (a fractional frame inside that range passes the guard), then
translates the gap-stripped normalized sequence. -/
def translateNucleotideSequence (sequence : List Char) (frame : ℚ) : TranslationResult :=
  if frame < 0 ∨ 2 < frame then .thrown "Reading frame must be 0, 1, or 2"
  else
    let normalized := normalizeSequence sequence .nucleotide
    let sanitized := normalized.filter (fun c => c != '-')
    .translated (translateLoop sanitized (sanitized.length + 1) frame)

/-- The record `createBaseCountRecord()` initializes. -/
structure BaseCounts where
  A : Nat
  C : Nat
  G : Nat
  T : Nat
  N : Nat
  others : Nat
deriving DecidableEq

/-- The tally loop of `calculateNucleotideSequenceStats`: `A`, `C`, `G`, `T`
and `N` have their own buckets, everything else lands in `others`. -/
def tallyStep (counts : BaseCounts) (base : Char) : BaseCounts :=
  if base == 'A' then { counts with A := counts.A + 1 }
  else if base == 'C' then { counts with C := counts.C + 1 }
  else if base == 'G' then { counts with G := counts.G + 1 }
  else if base == 'T' then { counts with T := counts.T + 1 }
  else if base == 'N' then { counts with N := counts.N + 1 }
  else { counts with others := counts.others + 1 }

/-- `tallyBases` runs `tallyStep` over the normalized sequence starting from
`createBaseCountRecord()`. -/
def tallyBases (normalized : List Char) : BaseCounts :=
  normalized.foldl tallyStep ⟨0, 0, 0, 0, 0, 0⟩

/-- `NucleotideSequenceStats` of `nucleotideUtils.ts`. -/
structure NucleotideSequenceStats where
  header : List Char
  length : Nat
  gcContent : ℚ
  atContent : ℚ
  gcSkew : ℚ
  nCount : Nat
  baseCounts : BaseCounts
deriving DecidableEq

/-- `calculateNucleotideSequenceStats` of `nucleotideUtils.ts`. -/
def calculateNucleotideSequenceStats (sequence : List Char) (header : List Char) :
    NucleotideSequenceStats :=
  let normalized := normalizeSequence sequence .nucleotide
  let counts := tallyBases normalized
  let length := normalized.length
  let gc := counts.G + counts.C
  let atc := counts.A + counts.T
  let denominatorGC : Nat := if gc = 0 then 1 else gc
  let gcSkew : ℚ := if gc = 0 then 0 else ((counts.G : ℚ) - (counts.C : ℚ)) / (denominatorGC : ℚ)
  { header := header
    length := length
    gcContent := if length ≠ 0 then ((gc : ℚ) / (length : ℚ)) * 100 else 0
    atContent := if length ≠ 0 then ((atc : ℚ) / (length : ℚ)) * 100 else 0
    gcSkew := gcSkew
    nCount := counts.N
    baseCounts := counts }

/-- `isInformativeBase` of `nucleotideUtils.ts`. -/
def isInformativeBase (base : Char) : Bool :=
  PURINES.contains base || PYRIMIDINES.contains base

/-- The four outcomes of `classifyDifference`. -/
inductive DiffClass where
  | gap
  | ambiguous
  | transition
  | transversion
deriving DecidableEq

/-- `classifyDifference` of `nucleotideUtils.ts` (only called on mismatching
position pairs). -/
def classifyDifference (reference variant : Char) : DiffClass :=
  if reference == '-' || variant == '-' then .gap
  else if !isInformativeBase reference || !isInformativeBase variant then .ambiguous
  else if (PURINES.contains reference && PURINES.contains variant)
       || (PYRIMIDINES.contains reference && PYRIMIDINES.contains variant) then .transition
  else .transversion

/-- The per-variant classification loop of `summarizeNucleotideAlignment`:
`(transitions, transversions, gaps, ambiguous)` over the gap-padded stored
sequences; matching positions are skipped. -/
def diffStep (refSeq varSeq : List Char) (acc : Nat × Nat × Nat × Nat) (i : Nat) :
    Nat × Nat × Nat × Nat :=
  let refBase := refSeq.getD i '-'
  let varBase := varSeq.getD i '-'
  if refBase == varBase then acc
  else match classifyDifference refBase varBase with
    | .transition => (acc.1 + 1, acc.2.1, acc.2.2.1, acc.2.2.2)
    | .transversion => (acc.1, acc.2.1 + 1, acc.2.2.1, acc.2.2.2)
    | .gap => (acc.1, acc.2.1, acc.2.2.1 + 1, acc.2.2.2)
    | .ambiguous => (acc.1, acc.2.1, acc.2.2.1, acc.2.2.2 + 1)

/-- `diffTally` runs `diffStep` over `0 .. max(len(ref), len(variant)) - 1`. -/
def diffTally (refSeq varSeq : List Char) : Nat × Nat × Nat × Nat :=
  (List.range (max refSeq.length varSeq.length)).foldl (diffStep refSeq varSeq) (0, 0, 0, 0)

/-- `NucleotideComparisonStats` of `nucleotideUtils.ts`; the sentinel `null`
ratio is `none`. -/
structure NucleotideComparisonStats where
  variantHeader : List Char
  transitions : Nat
  transversions : Nat
  gaps : Nat
  ambiguous : Nat
  differenceCount : Nat
  titvRatio : Option ℚ
  identity : ℚ
  gcDelta : ℚ
deriving DecidableEq

/-- `NucleotideSummary` of `nucleotideUtils.ts`. -/
structure NucleotideSummary where
  sequences : List NucleotideSequenceStats
  comparisons : List NucleotideComparisonStats
deriving DecidableEq

/-- `summarizeNucleotideAlignment` of `nucleotideUtils.ts`. -/
def summarizeNucleotideAlignment (reference : Option FASTAEntry) (variants : List FASTAEntry) :
    NucleotideSummary :=
  let sequences :=
    (match reference with
      | some r => [calculateNucleotideSequenceStats r.sequence r.header]
      | none => []) ++
    variants.map (fun v => calculateNucleotideSequenceStats v.sequence v.header)
  let comparisons :=
    match reference with
    | none => []
    | some ref =>
      let referenceStats := calculateNucleotideSequenceStats ref.sequence ref.header
      variants.map (fun variant =>
        let variantStats := calculateNucleotideSequenceStats variant.sequence variant.header
        let identity := (compareSequences ref.sequence variant.sequence .nucleotide).identity
        let tally := diffTally ref.sequence variant.sequence
        let differenceCount := tally.1 + tally.2.1 + tally.2.2.1 + tally.2.2.2
        let ratio : Option ℚ :=
          if tally.2.1 = 0 then none else some ((tally.1 : ℚ) / (tally.2.1 : ℚ))
        { variantHeader := variant.header
          transitions := tally.1
          transversions := tally.2.1
          gaps := tally.2.2.1
          ambiguous := tally.2.2.2
          differenceCount := differenceCount
          titvRatio := ratio
          identity := identity
          gcDelta := variantStats.gcContent - referenceStats.gcContent })
  { sequences := sequences, comparisons := comparisons }

/-! Embedding of `src/lib/proteinUtils.ts`. -/

/-- `MW_DATA` of `proteinUtils.ts` (Daltons). -/
def MW_DATA : List (Char × ℚ) :=
  [('A', 89.09), ('C', 121.15), ('D', 133.10), ('E', 147.13), ('F', 165.19),
   ('G', 75.07), ('H', 155.16), ('I', 131.17), ('K', 146.19), ('L', 131.17),
   ('M', 149.21), ('N', 132.12), ('P', 115.13), ('Q', 146.15), ('R', 174.20),
   ('S', 105.09), ('T', 119.12), ('V', 117.15), ('W', 204.23), ('Y', 181.19)]

/-- `GRAVY_DATA` of `proteinUtils.ts`. -/
def GRAVY_DATA : List (Char × ℚ) :=
  [('A', 1.8), ('C', 2.5), ('D', -3.5), ('E', -3.5), ('F', 2.8),
   ('G', -0.4), ('H', -3.2), ('I', 4.5), ('K', -3.9), ('L', 3.8),
   ('M', 1.9), ('N', -3.5), ('P', -1.6), ('Q', -3.5), ('R', -4.5),
   ('S', -0.8), ('T', -0.7), ('V', 4.2), ('W', -0.9), ('Y', -1.3)]

/-- `HELIX_PROPENSITY` of `proteinUtils.ts`. -/
def HELIX_PROPENSITY : List (Char × ℚ) :=
  [('A', 1.42), ('C', 0.70), ('D', 1.01), ('E', 1.51), ('F', 1.13),
   ('G', 0.57), ('H', 1.00), ('I', 1.08), ('K', 1.16), ('L', 1.21),
   ('M', 1.45), ('N', 0.67), ('P', 0.57), ('Q', 1.11), ('R', 0.98),
   ('S', 0.77), ('T', 0.83), ('V', 1.06), ('W', 1.08), ('Y', 0.69)]

/-- `SHEET_PROPENSITY` of `proteinUtils.ts`. -/
def SHEET_PROPENSITY : List (Char × ℚ) :=
  [('A', 0.83), ('C', 1.19), ('D', 0.54), ('E', 0.37), ('F', 1.38),
   ('G', 0.75), ('H', 0.87), ('I', 1.60), ('K', 0.74), ('L', 1.30),
   ('M', 1.05), ('N', 0.89), ('P', 0.55), ('Q', 1.10), ('R', 0.93),
   ('S', 0.75), ('T', 1.19), ('V', 1.70), ('W', 1.37), ('Y', 1.47)]

/-- The gap strip `sequence.replace` with the global dash pattern. -/
def stripGaps (sequence : List Char) : List Char :=
  sequence.filter (fun c => c != '-')

/-- `calculatePI` of `proteinUtils.ts`: the crude
`6.5 + (positive/(negative + 1) - 1) * 2` estimate. -/
def calculatePI (sequence : List Char) : ℚ :=
  let positiveCount := (sequence.filter (fun aa => aa == 'K' || aa == 'R' || aa == 'H')).length
  let negativeCount := (sequence.filter (fun aa => aa == 'D' || aa == 'E')).length
  let ratio := (positiveCount : ℚ) / ((negativeCount : ℚ) + 1)
  6.5 + (ratio - 1) * 2

/-- `calculateInstabilityIndex` of `proteinUtils.ts`: `+10` per `P` or `G`,
normalized by length (the model reads `0 / 0` as `0` where JavaScript returns
`NaN` on the empty sequence). -/
def calculateInstabilityIndex (sequence : List Char) : ℚ :=
  let score := (sequence.filter (fun aa => aa == 'P' || aa == 'G')).length * 10
  ((score : ℚ) / (sequence.length : ℚ)) * 100

/-- `calculateNetCharge` of `proteinUtils.ts`: the histidine half-charge only
fires below pH 6.5. -/
def calculateNetCharge (sequence : List Char) (pH : ℚ) : ℚ :=
  sequence.foldl
    (fun charge aa =>
      let charge := if aa == 'K' || aa == 'R' then charge + 1 else charge
      let charge := if aa == 'D' || aa == 'E' then charge - 1 else charge
      if aa == 'H' ∧ pH < 6.5 then charge + 0.5 else charge)
    0

/-- `ProteinProperties` of `proteinUtils.ts`. -/
structure ProteinProperties where
  molecularWeight : ℚ
  isoelectricPoint : ℚ
  gravy : ℚ
  instabilityIndex : ℚ
  netCharge : ℚ
deriving DecidableEq

/-- `calculateProteinProperties` of `proteinUtils.ts`.  Note the water
correction `(length - 1) * 18.015` is applied over `ℚ`, so an empty
gap-stripped sequence contributes `-(-1) * 18.015`; `gravy` on the empty
sequence is `0 / 0`, read as `0` (JavaScript: `NaN`). -/
def calculateProteinProperties (sequence : List Char) : ProteinProperties :=
  let cleanSeq := stripGaps sequence
  let mwSum := cleanSeq.foldl (fun acc aa => acc + (MW_DATA.lookup aa).getD 0) 0
  let molecularWeight := mwSum - ((cleanSeq.length : ℚ) - 1) * 18.015
  let gravySum := cleanSeq.foldl (fun acc aa => acc + (GRAVY_DATA.lookup aa).getD 0) 0
  { molecularWeight := molecularWeight
    isoelectricPoint := calculatePI cleanSeq
    gravy := gravySum / (cleanSeq.length : ℚ)
    instabilityIndex := calculateInstabilityIndex cleanSeq
    netCharge := calculateNetCharge cleanSeq 7 }

/-- `SecondaryStructure` of `proteinUtils.ts`. -/
structure SecondaryStructure where
  helix : ℚ
  sheet : ℚ
  coil : ℚ
deriving DecidableEq

/-- JavaScript `Math.round`: round half toward positive infinity. -/
def jsRound (q : ℚ) : ℤ := ⌊q + 1 / 2⌋

/-- The raw helix percentage of `predictSecondaryStructure`:
`max(0, (helixAvg - 0.9) * 60)` (empty sequence: the average is `0 / 0`,
read as `0`; JavaScript carries `NaN`, and either way the rescale guard
below stays false). -/
def helixRaw (sequence : List Char) : ℚ :=
  let cleanSeq := stripGaps sequence
  let helixScore := cleanSeq.foldl (fun acc aa => acc + (HELIX_PROPENSITY.lookup aa).getD 1) 0
  max 0 ((helixScore / (cleanSeq.length : ℚ) - 0.9) * 60)

/-- The raw sheet percentage of `predictSecondaryStructure`:
`max(0, (sheetAvg - 0.9) * 50)`. -/
def sheetRaw (sequence : List Char) : ℚ :=
  let cleanSeq := stripGaps sequence
  let sheetScore := cleanSeq.foldl (fun acc aa => acc + (SHEET_PROPENSITY.lookup aa).getD 1) 0
  max 0 ((sheetScore / (cleanSeq.length : ℚ) - 0.9) * 50)

/-- The raw coil value `100 - helix - sheet` that the `if (coil < 0)` guard
of `predictSecondaryStructure` tests. -/
def coilRaw (sequence : List Char) : ℚ :=
  100 - helixRaw sequence - sheetRaw sequence

/-- The `if (coil < 0)` branch of `predictSecondaryStructure`, exactly as
written: `helix` is reassigned first, and the `sheet` reassignment then reads
the already-updated `helix`. -/
def rescaleBranch (helix sheet : ℚ) : ℚ × ℚ × ℚ :=
  let helix2 := helix / (helix + sheet) * (100 - 20)
  let sheet2 := sheet / (helix2 + sheet) * (100 - 20)
  (helix2, sheet2, 20)

/-- `predictSecondaryStructure` of `proteinUtils.ts`. -/
def predictSecondaryStructure (sequence : List Char) : SecondaryStructure :=
  let helix := helixRaw sequence
  let sheet := sheetRaw sequence
  let coil := coilRaw sequence
  let hsc := if coil < 0 then rescaleBranch helix sheet else (helix, sheet, coil)
  { helix := (jsRound (hsc.1 * 10) : ℚ) / 10
    sheet := (jsRound (hsc.2.1 * 10) : ℚ) / 10
    coil := (jsRound (hsc.2.2 * 10) : ℚ) / 10 }

/-! General helper lemmas about the embedded loops. -/

/-- A fold that only accumulates `f` over the elements is the sum of the
mapped list. -/
theorem foldl_add_map {α : Type} (f : α → ℚ) :
    ∀ (l : List α) (a : ℚ), l.foldl (fun acc x => acc + f x) a = a + (l.map f).sum
  | [], a => by simp
  | x :: l, a => by
    simp only [List.foldl_cons, List.map_cons, List.sum_cons, foldl_add_map f l]
    ring

/-- A defaulted association-list lookup is bounded when the default and every
stored value are. -/
theorem lookup_getD_le {l : List (Char × ℚ)} {c : Char} {d bound : ℚ}
    (hd : d ≤ bound) (h : ∀ p ∈ l, p.2 ≤ bound) : (l.lookup c).getD d ≤ bound := by
  induction l with
  | nil => simpa using hd
  | cons p l ih =>
    rw [List.lookup]
    split
    · exact h p (List.mem_cons_self p l)
    · exact ih fun q hq => h q (List.mem_cons_of_mem p hq)

/-!
C10.  `calculateProteinProperties` on a gaps-only (or empty) input: the
gap-stripped residue list is empty, so the molecular weight is
`0 - (0 - 1) * 18.015 = 18.015` — the water correction is subtracted even
with no residues.
-/

/-- C10: for every input consisting only of gap characters (the empty string
included), `calculateProteinProperties` returns `molecularWeight = 18.015`,
because the peptide-bond water correction `(length - 1) * 18.015` is
subtracted even when the gap-stripped residue count is zero. -/
theorem calculateProteinProperties_gap_only_molecularWeight
    (sequence : List Char) (h : ∀ c ∈ sequence, c = '-') :
    (calculateProteinProperties sequence).molecularWeight = 18.015 := by
  have hclean : stripGaps sequence = [] := by
    simp only [stripGaps, List.filter_eq_nil_iff]
    intro c hc
    simp [h c hc]
  simp only [calculateProteinProperties, hclean, List.foldl_nil, List.length_nil]
  norm_num

/-- C10 witness: the two-gap input `"--"` satisfies the hypothesis and gets
molecular weight `18.015`. -/
theorem calculateProteinProperties_gap_only_molecularWeight_witness :
    (∀ c ∈ ['-', '-'], c = '-') ∧ (calculateProteinProperties ['-', '-']).molecularWeight = 18.015 :=
  ⟨by decide, calculateProteinProperties_gap_only_molecularWeight ['-', '-'] (by decide)⟩

/-!
C6.  The RAS scenario: the single mismatch sits at 0-based index 13, so the
token is `"V14I"` (not the spec's `"V10I"`), and the identity is
`26 / 27 * 100 = 2600 / 27 ≈ 96.3%`.
-/

/-- The `identity` field of `compareSequences` in terms of the loop's match
count and the padded length. -/
theorem compareSequences_identity_formula (refSeq querySeq : List Char) (t : SequenceType)
    (m n : Nat)
    (hm : (compareSequencesLoop (normalizeSequence refSeq t) (normalizeSequence querySeq t)
      (List.range (max (normalizeSequence refSeq t).length
        (normalizeSequence querySeq t).length))).2.2 = m)
    (hl : max (normalizeSequence refSeq t).length (normalizeSequence querySeq t).length = n)
    (hn : 0 < n) :
    (compareSequences refSeq querySeq t).identity = (m : ℚ) / (n : ℚ) * 100 := by
  simp only [compareSequences]
  rw [hm, hl, if_pos hn]

/-- C6 (amended): comparing the two RAS fragments in protein mode yields
exactly one difference token, `"V14I"`, residue position 14, and identity
`2600 / 27` (≈ 96.296%). -/
theorem compareSequences_ras_scenario :
    (compareSequences "MTEYKLVVVGAGGVGKSALTIQLIQNH".data "MTEYKLVVVGAGGIGKSALTIQLIQNH".data
      .protein).differences = ["V14I"] ∧
    (compareSequences "MTEYKLVVVGAGGVGKSALTIQLIQNH".data "MTEYKLVVVGAGGIGKSALTIQLIQNH".data
      .protein).residues = [14] ∧
    (compareSequences "MTEYKLVVVGAGGVGKSALTIQLIQNH".data "MTEYKLVVVGAGGIGKSALTIQLIQNH".data
      .protein).identity = 2600 / 27 := by
  refine ⟨by decide, by decide, ?_⟩
  rw [compareSequences_identity_formula _ _ _ 26 27 (by decide) (by decide) (by norm_num)]
  norm_num

/-- C6 counterexample: the difference list of the RAS scenario is not
`["V10I"]` as the claim states. -/
theorem compareSequences_ras_token_counterexample :
    (compareSequences "MTEYKLVVVGAGGVGKSALTIQLIQNH".data "MTEYKLVVVGAGGIGKSALTIQLIQNH".data
      .protein).differences ≠ ["V10I"] := by
  decide

/-!
C5.  `translateNucleotideSequence` throws exactly when `frame < 0` or
`frame > 2`; the check does not restrict to integers, so the fractional
frame `1.5` passes the guard and translates codons at truncated indices.
-/

/-- One iteration of the codon loop when the exit condition is still false. -/
theorem translateLoop_step (s : List Char) (fuel : Nat) (i : ℚ)
    (h : i + 2 < (s.length : ℚ)) :
    translateLoop s (fuel + 1) i =
      ((GENETIC_CODE.lookup (String.mk ((codonSlice s i).map
        (fun c => if AMBIGUOUS_TO_N.contains c then 'N' else c)))).getD 'X') ::
        translateLoop s fuel (i + 3) := by
  simp only [translateLoop]
  rw [if_pos h]

/-- The codon loop stops as soon as fewer than three bases remain. -/
theorem translateLoop_stop (s : List Char) (fuel : Nat) (i : ℚ)
    (h : ¬ i + 2 < (s.length : ℚ)) : translateLoop s fuel i = [] := by
  cases fuel with
  | zero => rfl
  | succ fuel =>
    simp only [translateLoop]
    rw [if_neg h]

/-- C5 (amended): `translateNucleotideSequence` throws its frame error (the
JavaScript function raises an `Error`, modelled as the `thrown` result)
exactly when `frame < 0` or `frame > 2`; in particular the integer frames
`-1` and `3` throw, while the non-integer frame `1.5` passes the guard and
translates `"ATGGCG"` to `"W"` from the truncated codon positions. -/
theorem translateNucleotideSequence_frame_guard :
    (∀ (sequence : List Char) (frame : ℚ),
      translateNucleotideSequence sequence frame = .thrown "Reading frame must be 0, 1, or 2" ↔
        (frame < 0 ∨ 2 < frame)) ∧
    translateNucleotideSequence "ATGGCG".data (-1) = .thrown "Reading frame must be 0, 1, or 2" ∧
    translateNucleotideSequence "ATGGCG".data 3 = .thrown "Reading frame must be 0, 1, or 2" ∧
    translateNucleotideSequence "ATGGCG".data (3 / 2) = .translated ['W'] := by
  have hguard : ∀ (sequence : List Char) (frame : ℚ),
      translateNucleotideSequence sequence frame = .thrown "Reading frame must be 0, 1, or 2" ↔
        (frame < 0 ∨ 2 < frame) := by
    intro sequence frame
    by_cases h : frame < 0 ∨ 2 < frame
    · simp [translateNucleotideSequence, h]
    · simp [translateNucleotideSequence, h]
  refine ⟨hguard, (hguard _ _).2 (by norm_num), (hguard _ _).2 (by norm_num), ?_⟩
  simp only [translateNucleotideSequence]
  rw [if_neg (by norm_num)]
  have hs : (normalizeSequence "ATGGCG".data .nucleotide).filter (fun c => c != '-') =
      "ATGGCG".data := by decide
  rw [hs]
  have hlen : ("ATGGCG".data.length) = 6 := by decide
  rw [hlen]
  have hcodon : codonSlice "ATGGCG".data (3 / 2) = "TGG".data := by
    simp only [codonSlice]
    rw [show Int.toNat ⌊(3 : ℚ) / 2 + 3⌋ = 4 by
          rw [show ⌊(3 : ℚ) / 2 + 3⌋ = (4 : ℤ) from by norm_num]
          decide,
      show Int.toNat ⌊(3 : ℚ) / 2⌋ = 1 by
          rw [show ⌊(3 : ℚ) / 2⌋ = (1 : ℤ) from by norm_num]
          decide]
    decide
  rw [translateLoop_step _ _ _ (by rw [hlen]; norm_num), hcodon,
    translateLoop_stop _ _ _ (by rw [hlen]; norm_num)]
  decide

/-- C5 counterexample: the frame `3 / 2` lies outside `{0, 1, 2}`, yet the
translation succeeds instead of failing with the frame error. -/
theorem translateNucleotideSequence_fractional_frame_counterexample :
    ((3 : ℚ) / 2 ≠ 0 ∧ (3 : ℚ) / 2 ≠ 1 ∧ (3 : ℚ) / 2 ≠ 2) ∧
    translateNucleotideSequence "ATGGCG".data (3 / 2) ≠
      .thrown "Reading frame must be 0, 1, or 2" := by
  constructor
  · norm_num
  · simp only [translateNucleotideSequence]
    rw [if_neg (by norm_num)]
    simp

/-!
C7 and C4.  `validateSequence` runs its emptiness check and its length check
on the raw argument, before normalization: a whitespace-only sequence
normalizes to empty yet is reported valid, and the 10,000 ceiling applies to
the raw length.
-/

/-- A fold with the `collectInvalidCharacters` step leaves the accumulator
unchanged over characters of the active alphabet. -/
theorem collectInvalid_foldl_all_valid (t : SequenceType) :
    ∀ (l : List Char) (acc : List Char), (∀ c ∈ l, (getAlphabet t).contains c) →
      l.foldl
        (fun invalid c =>
          if (getAlphabet t).contains c then invalid
          else if invalid.contains c then invalid
          else invalid ++ [c]) acc = acc
  | [], acc, _ => rfl
  | c :: l, acc, h => by
    rw [List.foldl_cons, if_pos (h c (List.mem_cons_self c l))]
    exact collectInvalid_foldl_all_valid t l acc fun d hd => h d (List.mem_cons_of_mem c hd)

/-- `collectInvalidCharacters` finds nothing in a sequence drawn from the
active alphabet. -/
theorem collectInvalidCharacters_all_valid (l : List Char) (t : SequenceType)
    (h : ∀ c ∈ l, (getAlphabet t).contains c) : collectInvalidCharacters l t = [] :=
  collectInvalid_foldl_all_valid t l [] h

/-- C7 (amended): `validateSequence` reports `EmptySequence` exactly for the
raw empty string — the check runs before normalization — so a whitespace-only
input, which normalizes to empty, instead passes validation as valid. -/
theorem validateSequence_empty_raw_only :
    (∀ (s : List Char) (t : SequenceType), validateSequence s t = .emptySequence ↔ s = []) ∧
    validateSequence [' '] .protein = .valid := by
  constructor
  · intro s t
    by_cases h : s = []
    · simp [validateSequence, h]
    · simp only [validateSequence, if_neg h]
      split
      · simp [h]
      · split <;> simp [h]
  · decide

/-- C7 counterexample: the whitespace-only input `" "` has normalized length
zero, yet `validateSequence` returns valid, not `EmptySequence`. -/
theorem validateSequence_whitespace_counterexample :
    (normalizeSequence [' '] .protein).length = 0 ∧
    validateSequence [' '] .protein = .valid ∧
    validateSequence [' '] .protein ≠ .emptySequence := by
  decide

/-- C4 (amended): `validateSequence` reports `SequenceTooLong` exactly when
the raw, pre-normalization length exceeds 10,000 (and the sequence is
non-empty, since the emptiness check runs first); a sequence of exactly
10,000 valid characters passes and one of 10,001 fails. -/
theorem validateSequence_tooLong_raw_length :
    (∀ (s : List Char) (t : SequenceType),
      validateSequence s t = .sequenceTooLong ↔ (s ≠ [] ∧ MAX_SEQUENCE_LENGTH < s.length)) ∧
    validateSequence (List.replicate 10000 'A') .protein = .valid ∧
    validateSequence (List.replicate 10001 'A') .protein = .sequenceTooLong := by
  refine ⟨?_, ?_, ?_⟩
  · intro s t
    by_cases h : s = []
    · simp [validateSequence, h]
    · simp only [validateSequence, if_neg h]
      by_cases hl : MAX_SEQUENCE_LENGTH < s.length
      · simp [hl, h]
      · simp only [if_neg hl]
        split <;> simp [h, hl]
  · have hne : List.replicate 10000 'A' ≠ ([] : List Char) := by
      intro h
      have := congrArg List.length h
      rw [List.length_replicate] at this
      simp at this
    have hlen : ¬ MAX_SEQUENCE_LENGTH < (List.replicate 10000 'A').length := by
      rw [List.length_replicate]
      decide
    have hnorm : normalizeSequence (List.replicate 10000 'A') .protein =
        List.replicate 10000 'A' := by
      simp only [normalizeSequence]
      rw [List.filter_eq_self.2 fun a ha => by rw [List.eq_of_mem_replicate ha]; decide,
        List.map_replicate]
      rfl
    have hinv : collectInvalidCharacters (List.replicate 10000 'A') .protein = [] :=
      collectInvalidCharacters_all_valid _ _
        fun c hc => by rw [List.eq_of_mem_replicate hc]; decide
    simp only [validateSequence, if_neg hne, if_neg hlen, hnorm, hinv]
    rfl
  · have hne : List.replicate 10001 'A' ≠ ([] : List Char) := by
      intro h
      have := congrArg List.length h
      rw [List.length_replicate] at this
      simp at this
    have hlen : MAX_SEQUENCE_LENGTH < (List.replicate 10001 'A').length := by
      rw [List.length_replicate]
      decide
    simp only [validateSequence, if_neg hne, if_pos hlen]

/-- C4 counterexample: 5,000 valid residues followed by 5,001 blanks has
normalized length 5,000 ≤ 10,000, yet validation fails with
`SequenceTooLong`, because the length check sees the raw 10,001-character
input. -/
theorem validateSequence_tooLong_normalized_counterexample :
    validateSequence (List.replicate 5000 'A' ++ List.replicate 5001 ' ') .protein =
      .sequenceTooLong ∧
    (normalizeSequence (List.replicate 5000 'A' ++ List.replicate 5001 ' ') .protein).length =
      5000 ∧
    ¬ MAX_SEQUENCE_LENGTH < 5000 := by
  have hlenfull : (List.replicate 5000 'A' ++ List.replicate 5001 ' ').length = 10001 := by
    rw [List.length_append, List.length_replicate, List.length_replicate]
  refine ⟨?_, ?_, by decide⟩
  · have hne : List.replicate 5000 'A' ++ List.replicate 5001 ' ' ≠ ([] : List Char) := by
      intro h
      have := congrArg List.length h
      rw [hlenfull] at this
      simp at this
    have hlen : MAX_SEQUENCE_LENGTH <
        (List.replicate 5000 'A' ++ List.replicate 5001 ' ').length := by
      rw [hlenfull]
      decide
    simp only [validateSequence, if_neg hne, if_pos hlen]
  · simp only [normalizeSequence, List.filter_append]
    rw [List.filter_eq_self.2 fun a ha => by rw [List.eq_of_mem_replicate ha]; decide,
      show (List.replicate 5001 ' ').filter (fun c => !jsIsSpace c) = [] from
        List.filter_eq_nil_iff.2 fun a ha => by rw [List.eq_of_mem_replicate ha]; decide,
      List.append_nil, List.map_replicate, List.length_replicate]

/-!
C2.  Self-comparison: matching positions only count toward `matchCount` when
the character is not the gap `'-'`, while `identity` always divides by the
full padded length — so a valid sequence containing gaps compares against
itself with identity below 100.  Reflexivity holds on gap-free valid
sequences.
-/

/-- Every character of either alphabet is non-whitespace, is its own
upper-case, and is not `'U'` — so normalization leaves alphabet text
unchanged. -/
theorem alphabet_chars_fixed (t : SequenceType) :
    ∀ c ∈ getAlphabet t, jsIsSpace c = false ∧ Char.toUpper c = c ∧ c ≠ 'U' := by
  cases t <;> decide

/-- `normalizeSequence` fixes any sequence drawn from the active alphabet. -/
theorem normalizeSequence_fixpoint (s : List Char) (t : SequenceType)
    (h : ∀ c ∈ s, c ∈ getAlphabet t) : normalizeSequence s t = s := by
  have h1 : s.filter (fun c => !jsIsSpace c) = s :=
    List.filter_eq_self.2 fun a ha => by rw [(alphabet_chars_fixed t a (h a ha)).1]; rfl
  have h2 : s.map Char.toUpper = s :=
    (List.map_congr_left fun a ha => (alphabet_chars_fixed t a (h a ha)).2.1).trans
      (List.map_id s)
  cases t with
  | protein =>
    simp only [normalizeSequence]
    rw [h1, h2]
  | nucleotide =>
    simp only [normalizeSequence]
    rw [h1, h2]
    exact (List.map_congr_left fun a ha => by
      rw [if_neg (by simpa using (alphabet_chars_fixed .nucleotide a (h a ha)).2.2)]
      rfl).trans (List.map_id s)

/-- Comparing a sequence with itself over gap-free indices records no
difference and one match per index. -/
theorem compareSequencesLoop_self (s : List Char) (is : List Nat)
    (h : ∀ i ∈ is, s.getD i '-' ≠ '-') :
    compareSequencesLoop s s is = ([], [], is.length) := by
  induction is with
  | nil => rfl
  | cons i rest ih =>
    simp only [compareSequencesLoop]
    rw [ih fun j hj => h j (List.mem_cons_of_mem i hj)]
    rw [if_neg fun hx => hx rfl, if_pos (h i (List.mem_cons_self i rest))]
    rfl

/-- C2 (amended): `compareSequences(s, s, type).identity = 100` for every
non-empty sequence `s` over the active alphabet that contains no gap
character. -/
theorem compareSequences_self_identity_gapfree (s : List Char) (t : SequenceType)
    (h1 : s ≠ []) (h2 : ∀ c ∈ s, c ∈ getAlphabet t) (h3 : ∀ c ∈ s, c ≠ '-') :
    (compareSequences s s t).identity = 100 := by
  have hn := normalizeSequence_fixpoint s t h2
  have hlen : 0 < s.length := List.length_pos.2 h1
  have hloop : ∀ i ∈ List.range s.length, s.getD i '-' ≠ '-' := by
    intro i hi
    rw [List.mem_range] at hi
    rw [List.getD_eq_getElem s '-' hi]
    exact h3 _ (List.getElem_mem hi)
  rw [compareSequences_identity_formula s s t s.length s.length
    (by rw [hn, max_self, compareSequencesLoop_self s _ hloop, List.length_range])
    (by rw [hn, max_self]) hlen]
  rw [div_self (by exact_mod_cast hlen.ne' : ((s.length : ℚ)) ≠ 0)]
  norm_num

/-- C2 witness: `"ACD"` is non-empty, alphabet-valid and gap-free, and
self-comparison yields identity 100. -/
theorem compareSequences_self_identity_gapfree_witness :
    ("ACD".data ≠ [] ∧ (∀ c ∈ "ACD".data, c ∈ getAlphabet .protein) ∧
      (∀ c ∈ "ACD".data, c ≠ '-')) ∧
    (compareSequences "ACD".data "ACD".data .protein).identity = 100 :=
  ⟨⟨by decide, by decide, by decide⟩,
    compareSequences_self_identity_gapfree "ACD".data .protein (by decide) (by decide) (by decide)⟩

/-- C2 counterexample: the one-character sequence `"-"` is non-empty and
every character belongs to the protein alphabet (which includes the gap),
yet its self-comparison identity is 0, not 100. -/
theorem compareSequences_self_gap_identity_counterexample :
    (['-'] ≠ ([] : List Char) ∧ (∀ c ∈ ['-'], c ∈ getAlphabet .protein)) ∧
    (compareSequences ['-'] ['-'] .protein).identity ≠ 100 := by
  refine ⟨⟨by decide, by decide⟩, ?_⟩
  rw [compareSequences_identity_formula ['-'] ['-'] .protein 0 1 (by decide) (by decide)
    (by norm_num)]
  norm_num

/-!
C3.  The whole-input fallback of `parseFASTAEntries` is guarded by
`entries.length === 0` after the loop, not by the absence of `>` headers:
an input whose headers all carry empty sequence content falls through to the
raw-sequence fallback, which normalizes the entire text — header characters
included — into one entry.
-/

/-- C3 (amended): whenever the parse loop (including its final `addEntry`)
commits no entry — in particular when every `>` header has empty sequence
content — `parseFASTAEntries` does not return the empty list unless the
normalized whole input is empty: it falls back to one raw entry holding the
normalized entire input, under the header `"Sequence 1"`. -/
theorem parseFASTAEntries_raw_fallback (text : List Char) (t : SequenceType)
    (h : (parseFASTAState text t).entries = []) :
    parseFASTAEntries text t =
      if normalizeSequence text t = [] then []
      else [⟨"Sequence 1".data, normalizeSequence text t⟩] := by
  by_cases ht : text = []
  · subst ht
    have hnil : normalizeSequence ([] : List Char) t = [] := by cases t <;> rfl
    rw [hnil]
    simp [parseFASTAEntries]
  · simp only [parseFASTAEntries, if_neg ht, h]
    by_cases hn : normalizeSequence text t = []
    · simp [hn]
    · have hhd : ("Sequence 1".data ≠ ([] : List Char)) := by decide
      simp [hn, hhd, List.enum]

/-- C3 witness: the header-only input `">s1"` commits no entry, and the
fallback packs the whole normalized input — `">S1"`, the `>` included — into
one entry. -/
theorem parseFASTAEntries_raw_fallback_witness :
    (parseFASTAState ">s1".data .protein).entries = [] ∧
    parseFASTAEntries ">s1".data .protein =
      (if normalizeSequence ">s1".data .protein = [] then []
       else [⟨"Sequence 1".data, normalizeSequence ">s1".data .protein⟩]) :=
  ⟨by decide, parseFASTAEntries_raw_fallback ">s1".data .protein (by decide)⟩

/-- C3 counterexample: the lone header line `">s1"` has no sequence content,
yet `parseFASTAEntries` returns a non-empty list — one raw entry whose
sequence is the normalized whole input `">S1"`. -/
theorem parseFASTAEntries_header_only_counterexample :
    parseFASTAEntries ">s1".data .protein = [⟨"Sequence 1".data, ">S1".data⟩] ∧
    parseFASTAEntries ">s1".data .protein ≠ [] := by
  decide

/-!
C8.  The `A`, `C`, `G`, `T`, `N` and `others` buckets of
`calculateNucleotideSequenceStats` partition the normalized sequence, so the
GC, AT and remaining fractions sum to exactly 100 (the arithmetic is exact
over `ℚ`).
-/

/-- Each `tallyStep` lands the character in exactly one bucket: the six
counters together grow by the list length. -/
theorem tally_foldl_total : ∀ (l : List Char) (acc : BaseCounts),
    (l.foldl tallyStep acc).A + (l.foldl tallyStep acc).C + (l.foldl tallyStep acc).G +
      (l.foldl tallyStep acc).T + (l.foldl tallyStep acc).N +
      (l.foldl tallyStep acc).others =
    acc.A + acc.C + acc.G + acc.T + acc.N + acc.others + l.length
  | [], acc => by simp
  | c :: l, acc => by
    simp only [List.foldl_cons, List.length_cons]
    rw [tally_foldl_total l (tallyStep acc c)]
    simp only [tallyStep]
    split_ifs <;> simp <;> omega

/-- The six buckets of `tallyBases` sum to the sequence length. -/
theorem tallyBases_total (l : List Char) :
    (tallyBases l).A + (tallyBases l).C + (tallyBases l).G + (tallyBases l).T +
      (tallyBases l).N + (tallyBases l).others = l.length := by
  have := tally_foldl_total l ⟨0, 0, 0, 0, 0, 0⟩
  simpa [tallyBases] using this

/-- C8: for a valid nucleotide sequence with non-empty normalization,
`gcContent + atContent + (nCount + others) / length * 100 = 100`. -/
theorem calculateNucleotideSequenceStats_composition (sequence header : List Char)
    (hv : validateSequence sequence .nucleotide = .valid)
    (hn : normalizeSequence sequence .nucleotide ≠ []) :
    (calculateNucleotideSequenceStats sequence header).gcContent +
      (calculateNucleotideSequenceStats sequence header).atContent +
      (((calculateNucleotideSequenceStats sequence header).nCount : ℚ) +
          ((calculateNucleotideSequenceStats sequence header).baseCounts.others : ℚ)) /
        ((calculateNucleotideSequenceStats sequence header).length : ℚ) * 100 = 100 := by
  have hlen : (normalizeSequence sequence .nucleotide).length ≠ 0 :=
    fun h0 => hn (List.length_eq_zero.1 h0)
  have hsum := tallyBases_total (normalizeSequence sequence .nucleotide)
  simp only [calculateNucleotideSequenceStats, if_pos hlen]
  have hlq : ((normalizeSequence sequence .nucleotide).length : ℚ) ≠ 0 :=
    Nat.cast_ne_zero.2 hlen
  have hcast : ((tallyBases (normalizeSequence sequence .nucleotide)).A : ℚ) +
      ((tallyBases (normalizeSequence sequence .nucleotide)).C : ℚ) +
      ((tallyBases (normalizeSequence sequence .nucleotide)).G : ℚ) +
      ((tallyBases (normalizeSequence sequence .nucleotide)).T : ℚ) +
      ((tallyBases (normalizeSequence sequence .nucleotide)).N : ℚ) +
      ((tallyBases (normalizeSequence sequence .nucleotide)).others : ℚ) =
      ((normalizeSequence sequence .nucleotide).length : ℚ) := by
    exact_mod_cast congrArg (Nat.cast : Nat → ℚ) hsum
  push_cast
  field_simp
  linarith [hcast]

/-- C8 witness: the sequence `"ACGT"` validates, normalizes non-empty, and
its composition percentages sum to 100. -/
theorem calculateNucleotideSequenceStats_composition_witness :
    (validateSequence "ACGT".data .nucleotide = .valid ∧
      normalizeSequence "ACGT".data .nucleotide ≠ []) ∧
    (calculateNucleotideSequenceStats "ACGT".data "h".data).gcContent +
      (calculateNucleotideSequenceStats "ACGT".data "h".data).atContent +
      (((calculateNucleotideSequenceStats "ACGT".data "h".data).nCount : ℚ) +
          ((calculateNucleotideSequenceStats "ACGT".data "h".data).baseCounts.others : ℚ)) /
        ((calculateNucleotideSequenceStats "ACGT".data "h".data).length : ℚ) * 100 = 100 :=
  ⟨⟨by decide, by decide⟩,
    calculateNucleotideSequenceStats_composition "ACGT".data "h".data (by decide) (by decide)⟩

/-!
C9.  Every mismatching padded position is classified into exactly one of the
four buckets, so `differenceCount` equals the number of differing padded
positions.
-/

/-- One `diffStep` adds exactly one count, to exactly one bucket, when the
padded characters differ, and nothing otherwise. -/
theorem diffStep_total (r v : List Char) (acc : Nat × Nat × Nat × Nat) (i : Nat) :
    (diffStep r v acc i).1 + (diffStep r v acc i).2.1 + (diffStep r v acc i).2.2.1 +
      (diffStep r v acc i).2.2.2 =
    acc.1 + acc.2.1 + acc.2.2.1 + acc.2.2.2 +
      (if r.getD i '-' != v.getD i '-' then 1 else 0) := by
  simp only [diffStep]
  by_cases heq : r.getD i '-' = v.getD i '-'
  · rw [if_pos (beq_iff_eq.mpr heq),
      if_neg (show ¬((r.getD i '-' != v.getD i '-') = true) by
        simp only [bne_iff_ne]
        exact not_not_intro heq)]
    simp
  · rw [if_neg (show ¬((r.getD i '-' == v.getD i '-') = true) by
        simp only [beq_iff_eq]
        exact heq),
      if_pos (show (r.getD i '-' != v.getD i '-') = true by
        simp only [bne_iff_ne]
        exact heq)]
    rcases hcl : classifyDifference (r.getD i '-') (v.getD i '-') <;> simp <;> omega

/-- Folding `diffStep` counts exactly the mismatching indices. -/
theorem diff_foldl_total : ∀ (is : List Nat) (r v : List Char) (acc : Nat × Nat × Nat × Nat),
    (is.foldl (diffStep r v) acc).1 + (is.foldl (diffStep r v) acc).2.1 +
      (is.foldl (diffStep r v) acc).2.2.1 + (is.foldl (diffStep r v) acc).2.2.2 =
    acc.1 + acc.2.1 + acc.2.2.1 + acc.2.2.2 +
      (is.filter (fun i => r.getD i '-' != v.getD i '-')).length
  | [], _, _, acc => by simp
  | i :: is, r, v, acc => by
    rw [List.foldl_cons, List.filter_cons, diff_foldl_total is r v (diffStep r v acc i),
      diffStep_total r v acc i]
    cases hcond : r.getD i '-' != v.getD i '-' <;> simp [hcond] <;> omega

/-- The four `diffTally` buckets sum to the number of mismatching padded
positions. -/
theorem diffTally_total (r v : List Char) :
    (diffTally r v).1 + (diffTally r v).2.1 + (diffTally r v).2.2.1 + (diffTally r v).2.2.2 =
      ((List.range (max r.length v.length)).filter
        (fun i => r.getD i '-' != v.getD i '-')).length := by
  have := diff_foldl_total (List.range (max r.length v.length)) r v (0, 0, 0, 0)
  simpa [diffTally] using this

/-- C9: for every reference and variant entry, the reported
`differenceCount` (the sum of the transition, transversion, gap and
ambiguous buckets) equals the number of positions where the gap-padded
stored sequences differ. -/
theorem summarizeNucleotideAlignment_differenceCount (ref variant : FASTAEntry) :
    (summarizeNucleotideAlignment (some ref) [variant]).comparisons.map
        (fun c => c.differenceCount) =
      [((List.range (max ref.sequence.length variant.sequence.length)).filter
          (fun i => ref.sequence.getD i '-' != variant.sequence.getD i '-')).length] := by
  simp only [summarizeNucleotideAlignment, List.map_cons, List.map_nil]
  rw [diffTally_total]

/-!
C1.  The `if (coil < 0)` rescaling branch of `predictSecondaryStructure` is
unreachable — every propensity value is at most 1.51 (helix) / 1.70 (sheet),
so the raw percentages are at most 36.6 and 40 and the raw coil is at least
23.4 — and the branch as written is not a proportional rescale anyway: the
`sheet` reassignment reads the already-updated `helix`, so raw values
`(60, 60)` would become `(40, 48)`, which do not sum to 80.
-/

/-- Every helix propensity entry is at most 1.51 (glutamate). -/
theorem helix_propensity_le : ∀ p ∈ HELIX_PROPENSITY, p.2 ≤ (1.51 : ℚ) := by
  intro p hp
  fin_cases hp <;> norm_num

/-- Every sheet propensity entry is at most 1.70 (valine). -/
theorem sheet_propensity_le : ∀ p ∈ SHEET_PROPENSITY, p.2 ≤ (1.70 : ℚ) := by
  intro p hp
  fin_cases hp <;> norm_num

/-- A propensity fold is bounded by the per-residue maximum times the
length. -/
theorem propensity_foldl_le (table : List (Char × ℚ)) (bound : ℚ) (hb : (1 : ℚ) ≤ bound)
    (hall : ∀ p ∈ table, p.2 ≤ bound) (l : List Char) :
    l.foldl (fun acc aa => acc + (table.lookup aa).getD 1) 0 ≤ bound * l.length := by
  rw [foldl_add_map]
  have h := List.sum_le_card_nsmul (l.map fun aa => (table.lookup aa).getD 1) bound ?_
  · simpa [List.length_map, nsmul_eq_mul, mul_comm] using h
  · intro x hx
    obtain ⟨aa, _, rfl⟩ := List.mem_map.1 hx
    exact lookup_getD_le hb hall

/-- The raw helix percentage never exceeds 36.6. -/
theorem helixRaw_le (sequence : List Char) : helixRaw sequence ≤ 36.6 := by
  simp only [helixRaw]
  rcases eq_or_ne (stripGaps sequence) [] with h | h
  · rw [h]
    norm_num
  · have hlen : 0 < (stripGaps sequence).length := List.length_pos.2 h
    have hq : (0 : ℚ) < (stripGaps sequence).length := by exact_mod_cast hlen
    have hsum := propensity_foldl_le HELIX_PROPENSITY 1.51 (by norm_num) helix_propensity_le
      (stripGaps sequence)
    apply max_le (by norm_num)
    have havg : (stripGaps sequence).foldl
        (fun acc aa => acc + (HELIX_PROPENSITY.lookup aa).getD 1) 0 /
          ((stripGaps sequence).length : ℚ) ≤ 1.51 := by
      rw [div_le_iff₀ hq]
      linarith [hsum]
    nlinarith [havg]

/-- The raw sheet percentage never exceeds 40. -/
theorem sheetRaw_le (sequence : List Char) : sheetRaw sequence ≤ 40 := by
  simp only [sheetRaw]
  rcases eq_or_ne (stripGaps sequence) [] with h | h
  · rw [h]
    norm_num
  · have hlen : 0 < (stripGaps sequence).length := List.length_pos.2 h
    have hq : (0 : ℚ) < (stripGaps sequence).length := by exact_mod_cast hlen
    have hsum := propensity_foldl_le SHEET_PROPENSITY 1.70 (by norm_num) sheet_propensity_le
      (stripGaps sequence)
    apply max_le (by norm_num)
    have havg : (stripGaps sequence).foldl
        (fun acc aa => acc + (SHEET_PROPENSITY.lookup aa).getD 1) 0 /
          ((stripGaps sequence).length : ℚ) ≤ 1.70 := by
      rw [div_le_iff₀ hq]
      linarith [hsum]
    nlinarith [havg]

/-- The raw coil value is never negative (it is at least 23.4). -/
theorem coilRaw_nonneg (sequence : List Char) : 0 ≤ coilRaw sequence := by
  have h1 := helixRaw_le sequence
  have h2 := sheetRaw_le sequence
  have h3 : (0 : ℚ) ≤ helixRaw sequence := le_max_left 0 _
  have h4 : (0 : ℚ) ≤ sheetRaw sequence := le_max_left 0 _
  simp only [coilRaw]
  linarith

/-- C1: the rescaling branch can never run — the raw coil is non-negative
for every input, so `predictSecondaryStructure` always returns the rounded
raw values — and the branch as written is not the claimed proportional
rescale: fed raw values `(60, 60)` it would return helix 40 but sheet 48
(the `sheet` line divides by the already-updated helix), and `40 + 48 ≠ 80`. -/
theorem predictSecondaryStructure_rescale_dead_and_skewed :
    (∀ sequence : List Char, 0 ≤ coilRaw sequence) ∧
    (∀ sequence : List Char, predictSecondaryStructure sequence =
      ⟨(jsRound (helixRaw sequence * 10) : ℚ) / 10,
       (jsRound (sheetRaw sequence * 10) : ℚ) / 10,
       (jsRound (coilRaw sequence * 10) : ℚ) / 10⟩) ∧
    rescaleBranch 60 60 = (40, 48, 20) ∧ ((40 : ℚ) + 48 ≠ 80) := by
  refine ⟨coilRaw_nonneg, ?_, ?_, by norm_num⟩
  · intro sequence
    simp only [predictSecondaryStructure]
    rw [if_neg (not_lt.2 (coilRaw_nonneg sequence))]
  · simp only [rescaleBranch, Prod.mk.injEq]
    norm_num

end OmniAlign
